import Mathlib

/-!
Shallow embedding of the graph-to-relational export engine of
`src/neo4j_export.py` (class `Neo4jExporter`), covering identifier
resolution (`_determine_identifier`), node and relationship flattening
(`export_nodes`, `export_relationships`), scalar type inference
(`_infer_type`) and the sample-row reading the versioned model
generators perform.

Modelling conventions:
* Python `str` is Lean `String`; the Python string operations used by the
  script (`lower`, `endswith`, comparison, slicing) are re-implemented
  over `String.data` so that they reduce inside the kernel.
* a Neo4j record (`dict(node)`) is an association list `Record`;
  `Record.lookup` is `dict.get`, returning `none` for an absent key
  (the script treats an absent key and a stored `None` alike, and every
  comparison it makes is against the strings `""` and `"NULL"`, so
  property values are modelled as `String`).
* Python `sorted` is `List.insertionSort`, which is a stable sort, like
  Python's; the head of a stable sort by a key is the earliest element
  with a minimal key.
* a raised exception is `Except.error` / `Option.none`; the `continue`
  statements of the export loops are `List.filter` / `List.filterMap`.
-/

namespace NeoExport

/-- Character-level ASCII whitespace test, for the stripping `int()` and
`float()` perform on their argument. -/
def isSpaceChar (c : Char) : Bool :=
  c = ' ' || c = '\t' || c = '\n' || c = '\r' || c = '\x0b' || c = '\x0c'

/-- Strip leading and trailing whitespace from a character list. -/
def stripChars (l : List Char) : List Char :=
  ((l.dropWhile isSpaceChar).reverse.dropWhile isSpaceChar).reverse

/-- Drop one optional leading sign, as `int()` and `float()` allow. -/
def dropSign : List Char → List Char
  | '+' :: rest => rest
  | '-' :: rest => rest
  | l => l

/-- Decimal digit test. -/
def isDigitChar (c : Char) : Bool :=
  '0' ≤ c && c ≤ '9'

/-- A non-empty run of decimal digits in which single underscores may
appear between two digits (the numeric-literal shape CPython accepts);
`prevDigit` records whether the previous character was a digit. -/
def digitRun : List Char → (prevDigit : Bool) → Bool
  | [], prevDigit => prevDigit
  | c :: rest, prevDigit =>
    if isDigitChar c then digitRun rest true
    else if c = '_' then prevDigit && digitRun rest false
    else false

/-- Model of CPython `int(value)` succeeding on a string: optional
whitespace, an optional sign, then a digit run. -/
def pyIntOk (s : String) : Bool :=
  digitRun (dropSign (stripChars s.data)) false

/-- Split a character list at the first `e`/`E`, for the exponent part of
a float literal. -/
def splitExpChar : List Char → List Char × Option (List Char)
  | [] => ([], none)
  | c :: rest =>
    if c = 'e' || c = 'E' then ([], some rest)
    else
      let (m, e) := splitExpChar rest
      (c :: m, e)

/-- Split a character list at the first dot. -/
def splitDotChar : List Char → List Char × Option (List Char)
  | [] => ([], none)
  | c :: rest =>
    if c = '.' then ([], some rest)
    else
      let (m, f) := splitDotChar rest
      (c :: m, f)

/-- Lower-case a character list (ASCII, as every string the script
compares is ASCII). -/
def lowerChars (l : List Char) : List Char :=
  l.map Char.toLower

/-- Mantissa of a float literal: `digits`, `digits.`, `digits.digits` or
`.digits`. -/
def mantissaOk (l : List Char) : Bool :=
  match splitDotChar l with
  | (intPart, none) => digitRun intPart false
  | (intPart, some fracPart) =>
    (digitRun intPart false && (fracPart.isEmpty || digitRun fracPart false))
      || (intPart.isEmpty && digitRun fracPart false)

/-- Model of CPython `float(value)` succeeding on a string: optional
whitespace and sign, then `inf`/`infinity`/`nan` (case-insensitive) or a
mantissa with an optional exponent. -/
def pyFloatOk (s : String) : Bool :=
  let l := dropSign (stripChars s.data)
  let low := lowerChars l
  if low = "inf".data || low = "infinity".data || low = "nan".data then true
  else
    match splitExpChar l with
    | (mant, none) => mantissaOk mant
    | (mant, some ex) => mantissaOk mant && digitRun (dropSign ex) false

/-- Python `value.lower()` (ASCII). -/
def pyLower (s : String) : String :=
  ⟨lowerChars s.data⟩

/-- Python `value.endswith(suffix)`. -/
def pyEndsWith (s suf : String) : Bool :=
  suf.data.isSuffixOf s.data

/-- Python `str(x)[:50]`, the sample truncation of the model generators. -/
def pyTake50 (s : String) : String :=
  ⟨s.data.take 50⟩

/-- Model of `Neo4jExporter._infer_type` (src/neo4j_export.py lines
1221-1244): empty or `"NULL"` gives `string`; otherwise an integer
parse, then a float parse, then a case-insensitive `true`/`false`
comparison, and `string` as the default. -/
def infer_type (value : String) : String :=
  if value = "" || value = "NULL" then "string"
  else if pyIntOk value then "integer"
  else if pyFloatOk value then "float"
  else if pyLower value = "true" || pyLower value = "false" then "boolean"
  else "string"

/-- A materialised node or relationship record, `dict(node)` in the
script: an association list from property name to value, an absent key
standing for an absent (or `None`) property. -/
abbrev Record := List (String × String)

/-- Python `record.get(prop)`. -/
def Record.get (r : Record) (prop : String) : Option String :=
  List.lookup prop r

/-- The membership test `value in [None, "", "NULL"]` the script applies
to identifier values (src/neo4j_export.py lines 307 and 402). -/
def isNullValue : Option String → Bool
  | none => true
  | some v => v = "" || v = "NULL"

/-- Lexicographic comparison of character lists by code point, the order
Python string comparison (and hence `sorted`) uses. -/
def charListLe : List Char → List Char → Bool
  | [], _ => true
  | _ :: _, [] => false
  | a :: as, b :: bs =>
    if a.toNat < b.toNat then true
    else if b.toNat < a.toNat then false
    else charListLe as bs

/-- Python `<=` on strings, as a relation for `List.insertionSort`. -/
def strle (a b : String) : Prop :=
  charListLe a.data b.data = true

instance : DecidableRel strle := fun a b => by
  unfold strle; infer_instance

/-- Python `sorted` on a list of strings: a stable sort by the string
order. -/
def pySorted (l : List String) : List String :=
  List.insertionSort strle l

/-- Sort key of `sorted(id_candidates, key=lambda x: (x.lower() != 'id', len(x)))`
in `_determine_identifier` (src/neo4j_export.py line 158). -/
def idKey (x : String) : Bool × Nat :=
  (pyLower x ≠ "id", x.length)

/-- Lexicographic order on the Python tuples `(bool, int)` used as sort
keys, with `False < True`. -/
def keyLe (a b : Bool × Nat) : Bool :=
  (!a.1 && b.1) || (a.1 = b.1 && a.2 ≤ b.2)

/-- Comparison of id-candidate property names by their Python sort key,
as a relation for the stable sort. -/
def idKeyRel (x y : String) : Prop :=
  keyLe (idKey x) (idKey y) = true

instance : DecidableRel idKeyRel := fun x y => by
  unfold idKeyRel; infer_instance

/-- Sample values of one property, `[node.get(prop) for node in nodes if
node.get(prop) not in [None, "", "NULL"]]` (src/neo4j_export.py line
164). -/
def sampleValues (prop : String) (nodes : List Record) : List String :=
  nodes.filterMap fun node =>
    match node.get prop with
    | none => none
    | some v => if v = "" || v = "NULL" then none else some v

/-- Model of `Neo4jExporter._determine_identifier` (src/neo4j_export.py
lines 132-175). `constraintProps` is `self.unique_constraints[label]`
with `[]` for an absent entry, so the Python guard `label in
self.unique_constraints and self.unique_constraints[label]` is the list
being non-empty. The `sorted(...)[0]` of step 3 is the head of the
stable sort; the raised `ValueError` of the final line is `none`. -/
def determine_identifier (constraintProps : List String)
    (properties : List String) (nodes : List Record) : Option String :=
  match constraintProps with
  | identifier :: _ => some identifier
  | [] =>
    match properties.find? (fun p => pyLower p = "id") with
    | some p => some p
    | none =>
      let idCandidates := properties.filter fun p => pyEndsWith (pyLower p) "id"
      match (List.insertionSort idKeyRel idCandidates).head? with
      | some identifier => some identifier
      | none =>
        match properties.find? (fun p =>
            let values := sampleValues p nodes
            !values.isEmpty && decide values.Nodup) with
        | some p => some p
        | none => properties.head?

/-- First element of a list whose Python sort key is minimal, ties going
to the earlier element: the head of the stable `sorted(...)`; this is
proved equal to `(List.insertionSort idKeyRel l).head?` below. -/
def firstMinKey : List String → Option String
  | [] => none
  | x :: xs =>
    match firstMinKey xs with
    | none => some x
    | some m => if idKeyRel x m then some x else some m

/-- Following the claim's words, for comparison with
`determine_identifier`: the first property for which the cardinality of
the sampled values equals the count of non-null samples, the
zero-sample case included. -/
def claimFirstAllUnique (properties : List String) (nodes : List Record) : Option String :=
  properties.find? fun p => decide (sampleValues p nodes).Nodup

/-- Union of the property names observed across a label's records
(`all_properties`, a Python set built with `update(node_props.keys())`,
src/neo4j_export.py lines 285-292), as a duplicate-free list in
first-observation order; the script only ever sorts it, so the
pre-sort order is immaterial. -/
def allProps (nodes : List Record) : List String :=
  (nodes.flatMap fun node => node.map Prod.fst).dedup

/-- The nodes kept for the tabular file: `id_value not in [None, "", "NULL"]`
(src/neo4j_export.py lines 303-310). -/
def nodesWithId (identifier : String) (nodes : List Record) : List Record :=
  nodes.filter fun node => !isNullValue (node.get identifier)

/-- The column list of a node tabular file: identifier first, then
`sorted(p for p in all_properties if p != identifier)`
(src/neo4j_export.py lines 315-317). -/
def sortedProperties (identifier : String) (nodes : List Record) : List String :=
  identifier :: pySorted ((allProps nodes).filter fun p => p ≠ identifier)

/-- Rendering of one record by `csv.DictWriter(..., extrasaction='ignore',
restval='NULL')`: one cell per column, an absent key written as the
`NULL` sentinel (src/neo4j_export.py lines 323-327). -/
def renderRow (cols : List String) (node : Record) : List String :=
  cols.map fun c => (node.get c).getD "NULL"

/-- What `export_nodes` accumulates: `exported_files` (label to column
list), `self.label_identifiers`, and the rows written to each label's
tabular file. -/
structure NodeExportResult where
  files : List (String × List String)
  identifiers : List (String × String)
  rows : List (String × List (List String))
deriving DecidableEq

/-- Model of `Neo4jExporter.export_nodes` (src/neo4j_export.py lines
269-332). `ucs` is `self.unique_constraints`; each input pair is a node
label with its materialised records, in metadata iteration order. A
label with no records is skipped (`continue`, line 294). The
`ValueError` `_determine_identifier` raises for a label with no
properties and no constraint is not caught anywhere in the script, so it
ends the whole export: `Except.error` carries the failing label. -/
def export_nodes (ucs : List (String × List String)) :
    List (String × List Record) → Except String NodeExportResult
  | [] => .ok ⟨[], [], []⟩
  | (label, nodes) :: rest =>
    if nodes.isEmpty then export_nodes ucs rest
    else
      let propertiesList := pySorted (allProps nodes)
      match determine_identifier ((List.lookup label ucs).getD []) propertiesList nodes with
      | none => .error label
      | some identifier =>
        match export_nodes ucs rest with
        | .error e => .error e
        | .ok res =>
          let cols := sortedProperties identifier nodes
          let kept := nodesWithId identifier nodes
          .ok ⟨(label, cols) :: res.files,
               (label, identifier) :: res.identifiers,
               (label, kept.map (renderRow cols)) :: res.rows⟩

/-- Endpoint column naming of `export_relationships`
(src/neo4j_export.py lines 382-390): the `_source`/`_target` suffixes
are added exactly when source and target label coincide and resolve to
the same identifier property. -/
def endpointColNames (sourceLabel sourceIdProp targetLabel targetIdProp : String) :
    String × String :=
  if sourceLabel = targetLabel ∧ sourceIdProp = targetIdProp then
    (sourceLabel ++ "_" ++ sourceIdProp ++ "_source",
     targetLabel ++ "_" ++ targetIdProp ++ "_target")
  else
    (sourceLabel ++ "_" ++ sourceIdProp, targetLabel ++ "_" ++ targetIdProp)

/-- One `(source, r, target)` row returned by the pattern query. -/
structure RelRecord where
  src : Record
  rel : Record
  tgt : Record
deriving DecidableEq

/-- The skip test of the relationship row loop (src/neo4j_export.py
line 402): a row is kept iff neither endpoint identifier value is
`None`, `""` or `"NULL"`. -/
def relKeep (sourceIdProp targetIdProp : String) (rr : RelRecord) : Bool :=
  !isNullValue (rr.src.get sourceIdProp) && !isNullValue (rr.tgt.get targetIdProp)

/-- Cell value of a flattened relationship row: `rel_data` is
`{source_col: sv, target_col: tv}` updated with the relationship's own
properties, so a relationship property wins over an endpoint column of
the same name, and the later `target_col` assignment wins over
`source_col` when the two names collide; anything else is the `NULL`
restval. -/
def relRowValue (sourceCol targetCol sv tv : String) (rel : Record) (c : String) : String :=
  match rel.get c with
  | some v => v
  | none => if c = targetCol then tv else if c = sourceCol then sv else "NULL"

/-- Per-pattern output of `export_relationships`, the dict stored in
`exported_files[pattern_key]` (src/neo4j_export.py lines 434-444). -/
structure RelFileInfo where
  rel_type : String
  all_properties : List String
  rel_properties : List String
  source_label : String
  target_label : String
  source_id_prop : String
  target_id_prop : String
  source_col_name : String
  target_col_name : String
deriving DecidableEq

/-- Model of one iteration of the pattern loop of
`Neo4jExporter.export_relationships` (src/neo4j_export.py lines
357-446). `identifiers` is `self.label_identifiers`; `fetch` yields the
materialised `(source, r, target)` rows of a pattern. `none` models
`continue`: a missing endpoint identifier (line 378) or an empty row set
(line 416). -/
def processPattern (identifiers : List (String × String))
    (fetch : String → String → String → List RelRecord)
    (p : String × String × String) :
    Option (String × RelFileInfo × List (List String)) :=
  let sourceLabel := p.1
  let relType := p.2.1
  let targetLabel := p.2.2
  match List.lookup sourceLabel identifiers, List.lookup targetLabel identifiers with
  | some sourceIdProp, some targetIdProp =>
    let (sourceCol, targetCol) :=
      endpointColNames sourceLabel sourceIdProp targetLabel targetIdProp
    let recs := fetch sourceLabel relType targetLabel
    let kept := recs.filter (relKeep sourceIdProp targetIdProp)
    if kept.isEmpty then none
    else
      let relProperties := (kept.flatMap fun rr => rr.rel.map Prod.fst).dedup
      let cols := sourceCol :: targetCol :: pySorted relProperties
      let rows := kept.map fun rr =>
        cols.map (relRowValue sourceCol targetCol
          ((rr.src.get sourceIdProp).getD "") ((rr.tgt.get targetIdProp).getD "") rr.rel)
      some (sourceLabel ++ "_" ++ relType ++ "_" ++ targetLabel,
        { rel_type := relType
          all_properties := cols
          rel_properties := pySorted relProperties
          source_label := sourceLabel
          target_label := targetLabel
          source_id_prop := sourceIdProp
          target_id_prop := targetIdProp
          source_col_name := sourceCol
          target_col_name := targetCol }, rows)
  | _, _ => none

/-- Model of the whole pattern loop: skipped patterns contribute
nothing, the others one tabular file each. -/
def export_relationships (identifiers : List (String × String))
    (patterns : List (String × String × String))
    (fetch : String → String → String → List RelRecord) :
    List (String × RelFileInfo × List (List String)) :=
  patterns.filterMap (processPattern identifiers fetch)

/-- The tabular files the generators read back: file name to header row
plus data rows, `none` for a file that does not exist (opening it
raises, and the bare `except` leaves `sample_data = {}`). -/
abbrev FileSys := String → Option (List String × List (List String))

/-- The `sample_data` dict of the generators: `csv.DictReader` zips the
header with the first data row; a missing file (the `except` branch) or
a file with no data row (`next(reader, {})`) both give the empty dict
(src/neo4j_export.py lines 789-798 and the like). -/
def firstRowDict (fs : FileSys) (path : String) : List (String × String) :=
  match fs path with
  | some (header, row :: _) => header.zip row
  | some (_, []) => []
  | none => []

/-- One `fields` entry of a generated table schema: column name, sample
`str(sample_data.get(prop, ""))[:50]` and type
`_infer_type(sample_data.get(prop, ""))` (src/neo4j_export.py lines
843-849 and the like). -/
def tableFields (sample : List (String × String)) (cols : List String) :
    List (String × String × String) :=
  cols.map fun c =>
    (c, pyTake50 ((List.lookup c sample).getD ""), infer_type ((List.lookup c sample).getD ""))

/-- Node table-schema fields, identical in the three generators: the
sample row comes from the label's own file `<label>.csv`
(src/neo4j_export.py lines 789-798, 839-853 for format 2.4.0). -/
def nodeTableFields (fs : FileSys) (label : String) (properties : List String) :
    List (String × String × String) :=
  tableFields (firstRowDict fs (label ++ ".csv")) properties

/-- Relationship table-schema fields of `_generate_model_v2_4`: the
sample row is read from `<rel_type>.csv` (src/neo4j_export.py lines
896-905), not from the pattern's file, and feeds the `fields` of the
pattern's table schema (lines 974-988). `_generate_model_v0_1` reads
the same path (lines 1179-1188). -/
def v2_4RelTableFields (fs : FileSys) (info : RelFileInfo) :
    List (String × String × String) :=
  tableFields (firstRowDict fs (info.rel_type ++ ".csv")) info.all_properties

/-- The tabular file `export_relationships` actually writes for a
pattern, `<source>_<type>_<target>.csv` (src/neo4j_export.py line 424). -/
def backingRelFile (info : RelFileInfo) : String :=
  info.source_label ++ "_" ++ info.rel_type ++ "_" ++ info.target_label ++ ".csv"

/-- Following the spec's words, for comparison with
`v2_4RelTableFields`: per-column types of a relationship pattern's table
schema are inferred from the first row of that pattern's own backing
tabular file. -/
def specRelTableFields (fs : FileSys) (info : RelFileInfo) :
    List (String × String × String) :=
  tableFields (firstRowDict fs (backingRelFile info)) info.all_properties

/-- Labels given a `nodeLabels` schema entry by the generators: one
entry with `token = label` per entry of `node_files`, in iteration
order (src/neo4j_export.py lines 504 and 544-548 for format 3.0; a
label absent from `node_files` gets no entry in any format). -/
def nodeLabelTokens (nodeFiles : List (String × List String)) : List String :=
  nodeFiles.map Prod.fst

/-- Concrete file system for the format-2.4.0 sampling divergence: the
pattern's backing file exists with an all-numeric first row, and no file
named after the bare relationship type exists. -/
def c4Fs : FileSys := fun path =>
  if path = "Person_KNOWS_Person.csv" then
    some (["Person_id_source", "Person_id_target", "since"], [["1", "2", "2020"]])
  else none

/-- The `exported_files` entry of the pattern `(Person, KNOWS, Person)`
with identifier `id` on both ends. -/
def c4Info : RelFileInfo :=
  { rel_type := "KNOWS"
    all_properties := ["Person_id_source", "Person_id_target", "since"]
    rel_properties := ["since"]
    source_label := "Person"
    target_label := "Person"
    source_id_prop := "id"
    target_id_prop := "id"
    source_col_name := "Person_id_source"
    target_col_name := "Person_id_target" }

end NeoExport

namespace NeoExport

example : infer_type "42" = "integer" := by decide
example : infer_type "3.14" = "float" := by decide
example : infer_type "true" = "boolean" := by decide
example : infer_type "FALSE" = "boolean" := by decide
example : infer_type "" = "string" := by decide
example : infer_type "NULL" = "string" := by decide
example : infer_type "abc" = "string" := by decide
example : infer_type "-17" = "integer" := by decide
example : infer_type " 42 " = "integer" := by decide
example : infer_type "1e5" = "float" := by decide
example : infer_type ".5" = "float" := by decide
example : infer_type "1_000" = "integer" := by decide
example : infer_type "inf" = "float" := by decide

example : determine_identifier ["ssn"] ["id", "name"] [] = some "ssn" := by decide
example : determine_identifier [] ["name", "userId", "id"] [] = some "id" := by decide
example : determine_identifier [] ["name", "userId", "ID"] [] = some "ID" := by decide
example : determine_identifier [] ["accountId", "name"] [] = some "accountId" := by decide
example : determine_identifier [] ["bId", "aLongerId", "cId"] [] = some "bId" := by decide
example : determine_identifier [] ["a", "b"] [[("b", "1")]] = some "b" := by decide
example : determine_identifier [] ["a", "b"] [[("a", "x"), ("b", "1")], [("a", "x"), ("b", "2")]] = some "b" := by decide
example : determine_identifier [] ["a"] [] = some "a" := by decide
example : determine_identifier [] [] [] = none := by decide

example : endpointColNames "Person" "id" "Person" "id" =
    ("Person_id_source", "Person_id_target") := by decide

example : endpointColNames "Person" "id" "Account" "id" = ("Person_id", "Account_id") := by
  decide

example : export_nodes [] [("Person", [[("id", "1"), ("name", "Ann")], [("id", "2")]])] =
    .ok ⟨[("Person", ["id", "name"])], [("Person", "id")],
      [("Person", [["1", "Ann"], ["2", "NULL"]])]⟩ := by rfl

example : export_nodes [] [("A", [[]]), ("B", [[("p", "1")]])] = .error "A" := by rfl

example :
    processPattern [("Person", "id")] (fun _ _ _ => [⟨[("id", "1")], [("since", "2020")], [("id", "2")]⟩])
      ("Person", "KNOWS", "Person") =
    some ("Person_KNOWS_Person",
      ⟨"KNOWS", ["Person_id_source", "Person_id_target", "since"], ["since"],
        "Person", "Person", "id", "id", "Person_id_source", "Person_id_target"⟩,
      [["1", "2", "2020"]]) := by rfl

example :
    processPattern [("Person", "id")] (fun _ _ _ => [⟨[("id", "1")], [], [("id", "2")]⟩])
      ("Person", "OWNS", "Account") = none := by decide

example : (v2_4RelTableFields c4Fs c4Info).map (fun f => f.2.2) =
    ["string", "string", "string"] := by decide

example : (specRelTableFields c4Fs c4Info).map (fun f => f.2.2) =
    ["integer", "integer", "integer"] := by decide

example : nodeTableFields (fun _ => none) "Person" ["id", "name"] =
    [("id", "", "string"), ("name", "", "string")] := by decide

/-! Helper lemmas. -/

theorem keyLe_refl (a : Bool × Nat) : keyLe a a = true := by
  rcases a with ⟨b, n⟩
  cases b <;> simp [keyLe]

theorem keyLe_trans {a b c : Bool × Nat} (h1 : keyLe a b = true) (h2 : keyLe b c = true) :
    keyLe a c = true := by
  rcases a with ⟨ba, na⟩
  rcases b with ⟨bb, nb⟩
  rcases c with ⟨bc, nc⟩
  cases ba <;> cases bb <;> cases bc <;> simp_all [keyLe] <;> omega

theorem keyLe_of_not {a b : Bool × Nat} (h : keyLe a b = false) : keyLe b a = true := by
  rcases a with ⟨ba, na⟩
  rcases b with ⟨bb, nb⟩
  cases ba <;> cases bb <;> simp_all [keyLe] <;> omega

theorem firstMinKey_eq_none {l : List String} : firstMinKey l = none ↔ l = [] := by
  cases l with
  | nil => simp [firstMinKey]
  | cons x xs =>
    simp only [firstMinKey]
    cases h : firstMinKey xs <;> simp [h]
    split <;> simp

theorem head_insertionSort_eq_firstMinKey (l : List String) :
    (List.insertionSort idKeyRel l).head? = firstMinKey l := by
  induction l with
  | nil => rfl
  | cons x xs ih =>
    simp only [List.insertionSort, firstMinKey]
    cases h : List.insertionSort idKeyRel xs with
    | nil =>
      have hxs : xs = [] := (List.perm_nil).mp (h ▸ (List.perm_insertionSort idKeyRel xs)).symm
      subst hxs
      simp [List.orderedInsert, firstMinKey]
    | cons b t =>
      have hb : firstMinKey xs = some b := by
        rw [← ih, h]; rfl
      rw [hb]
      simp only [List.orderedInsert]
      split <;> simp

theorem firstMinKey_spec :
    ∀ (l : List String) (x : String), firstMinKey l = some x →
      ∃ i, l.get? i = some x ∧ (∀ y ∈ l, keyLe (idKey x) (idKey y) = true) ∧
        ∀ j y, j < i → l.get? j = some y → keyLe (idKey y) (idKey x) = false := by
  intro l
  induction l with
  | nil => intro x h; simp [firstMinKey] at h
  | cons a l ih =>
    intro x h
    simp only [firstMinKey] at h
    cases hm : firstMinKey l with
    | none =>
      rw [hm] at h
      have hl : l = [] := firstMinKey_eq_none.mp hm
      subst hl
      cases h
      exact ⟨0, rfl, by simp [keyLe_refl], fun j y hj => by omega⟩
    | some m =>
      rw [hm] at h
      have h : (if idKeyRel a m then some a else some m) = some x := h
      obtain ⟨i, hget, hmin, hfirst⟩ := ih m hm
      by_cases hc : idKeyRel a m
      · rw [if_pos hc] at h
        cases h
        refine ⟨0, rfl, ?_, fun j y hj => by omega⟩
        intro y hy
        rcases List.mem_cons.mp hy with hy | hy
        · subst hy; exact keyLe_refl _
        · exact keyLe_trans hc (hmin y hy)
      · rw [if_neg hc] at h
        cases h
        have hca : keyLe (idKey a) (idKey x) = false := by
          unfold idKeyRel at hc
          simpa using hc
        refine ⟨i + 1, by simpa using hget, ?_, ?_⟩
        · intro y hy
          rcases List.mem_cons.mp hy with hy | hy
          · subst hy; exact keyLe_of_not hca
          · exact hmin y hy
        · intro j y hj hget'
          cases j with
          | zero =>
            cases hget'
            exact hca
          | succ j => exact hfirst j y (by omega) (by simpa using hget')

theorem charListLe_total : ∀ a b : List Char, charListLe a b = true ∨ charListLe b a = true
  | [], _ => Or.inl rfl
  | _ :: _, [] => Or.inr rfl
  | a :: as, b :: bs => by
    simp only [charListLe]
    rcases Nat.lt_trichotomy a.toNat b.toNat with h | h | h
    · left; simp [h]
    · have h1 : ¬ a.toNat < b.toNat := by omega
      have h2 : ¬ b.toNat < a.toNat := by omega
      simpa [h1, h2] using charListLe_total as bs
    · right; simp [h]

theorem charListLe_trans :
    ∀ {a b c : List Char}, charListLe a b = true → charListLe b c = true →
      charListLe a c = true
  | [], _, _, _, _ => rfl
  | _ :: _, [], _, h1, _ => by simp [charListLe] at h1
  | _ :: _, _ :: _, [], _, h2 => by simp [charListLe] at h2
  | a :: as, b :: bs, c :: cs, h1, h2 => by
    simp only [charListLe] at h1 h2 ⊢
    rcases Nat.lt_trichotomy a.toNat b.toNat with hab | hab | hab
    · rcases Nat.lt_trichotomy b.toNat c.toNat with hbc | hbc | hbc
      · simp [show a.toNat < c.toNat by omega]
      · simp [show a.toNat < c.toNat by omega]
      · simp [show ¬ b.toNat < c.toNat by omega, hbc] at h2
    · have h1' : charListLe as bs = true := by
        simpa [show ¬ a.toNat < b.toNat by omega,
          show ¬ b.toNat < a.toNat by omega] using h1
      rcases Nat.lt_trichotomy b.toNat c.toNat with hbc | hbc | hbc
      · simp [show a.toNat < c.toNat by omega]
      · have h2' : charListLe bs cs = true := by
          simpa [show ¬ b.toNat < c.toNat by omega,
            show ¬ c.toNat < b.toNat by omega] using h2
        simp [show ¬ a.toNat < c.toNat by omega, show ¬ c.toNat < a.toNat by omega]
        exact charListLe_trans h1' h2'
      · simp [show ¬ b.toNat < c.toNat by omega, hbc] at h2
    · simp [show ¬ a.toNat < b.toNat by omega, hab] at h1

theorem strle_total (a b : String) : strle a b ∨ strle b a :=
  charListLe_total a.data b.data

theorem strle_trans {a b c : String} (h1 : strle a b) (h2 : strle b c) : strle a c :=
  charListLe_trans h1 h2

theorem str_append_cancel {a b c : String} (h : a ++ b = a ++ c) : b = c := by
  have hd : a.data ++ b.data = a.data ++ c.data := by
    have := congrArg String.data h
    simpa [String.data_append] using this
  have : b.data = c.data := List.append_cancel_left hd
  exact congrArg String.mk this

theorem nodup_fst_mem_eq {α β : Type} {l : List (α × β)}
    (h : (l.map Prod.fst).Nodup) {a : α} {b c : β}
    (h1 : (a, b) ∈ l) (h2 : (a, c) ∈ l) : b = c := by
  induction l with
  | nil => cases h1
  | cons hd tl ih =>
    simp only [List.map_cons, List.nodup_cons] at h
    rcases List.mem_cons.mp h1 with h1 | h1 <;> rcases List.mem_cons.mp h2 with h2 | h2
    · cases h1.trans h2.symm; rfl
    · exfalso
      apply h.1
      rw [← h1]
      simpa using List.mem_map_of_mem Prod.fst h2
    · exfalso
      apply h.1
      rw [← h2]
      simpa using List.mem_map_of_mem Prod.fst h1
    · exact ih h.2 h1 h2

theorem lookup_eq_none_of_not_mem {β : Type} {l : List (String × β)} {k : String}
    (h : k ∉ l.map Prod.fst) : List.lookup k l = none := by
  induction l with
  | nil => rfl
  | cons hd tl ih =>
    simp only [List.map_cons, List.mem_cons] at h
    push_neg at h
    simp only [List.lookup]
    have : (k == hd.1) = false := by
      simpa using h.1
    rw [this]
    exact ih h.2

theorem export_nodes_ok_mem (ucs : List (String × List String)) :
    ∀ (labels : List (String × List Record)) (res : NodeExportResult),
      export_nodes ucs labels = .ok res → ∀ l : String,
        (l ∈ res.files.map Prod.fst ∨ l ∈ res.identifiers.map Prod.fst ∨
          l ∈ res.rows.map Prod.fst) →
        ∃ recs, (l, recs) ∈ labels ∧ recs ≠ [] := by
  intro labels
  induction labels with
  | nil =>
    intro res h l hmem
    simp only [export_nodes] at h
    cases h
    simp at hmem
  | cons hd tl ih =>
    intro res h l hmem
    obtain ⟨label, nodes⟩ := hd
    simp only [export_nodes] at h
    by_cases hempty : nodes.isEmpty
    · rw [if_pos hempty] at h
      obtain ⟨recs, hmem', hne⟩ := ih res h l hmem
      exact ⟨recs, List.mem_cons_of_mem _ hmem', hne⟩
    · rw [if_neg hempty] at h
      cases hdet : determine_identifier ((List.lookup label ucs).getD [])
          (pySorted (allProps nodes)) nodes with
      | none => rw [hdet] at h; cases h
      | some identifier =>
        rw [hdet] at h
        cases hrest : export_nodes ucs tl with
        | error e => rw [hrest] at h; cases h
        | ok res' =>
          rw [hrest] at h
          cases h
          simp only [List.map_cons, List.mem_cons] at hmem
          by_cases hl : l = label
          · subst hl
            exact ⟨nodes, List.mem_cons_self _ _, by simpa using hempty⟩
          · have hmem' : l ∈ res'.files.map Prod.fst ∨
                l ∈ res'.identifiers.map Prod.fst ∨ l ∈ res'.rows.map Prod.fst := by
              rcases hmem with h | h
              · rcases h with h | h
                · exact absurd h hl
                · exact Or.inl h
              · rcases h with h | h <;> rcases h with h | h
                · exact absurd h hl
                · exact Or.inr (Or.inl h)
                · exact absurd h hl
                · exact Or.inr (Or.inr h)
            obtain ⟨recs, hmem'', hne⟩ := ih res' hrest l hmem'
            exact ⟨recs, List.mem_cons_of_mem _ hmem'', hne⟩

/-! The claims. -/

/-- C1: for a node label with a declared uniqueness constraint,
identifier resolution returns the first property named in that label's
constraint entry, regardless of every other heuristic: whatever the
property list (an `id`-named or `id`-suffixed property included) and
whatever the sampled records. -/
theorem c1_constraint_property_wins (c : String) (cs properties : List String)
    (nodes : List Record) :
    determine_identifier (c :: cs) properties nodes = some c := rfl

/-- C2 (amended): when source and target label are equal and resolve to
the same identifier property, the endpoint columns carry the
`_source`/`_target` suffixes; otherwise each endpoint column is
`<label>_<prop>` for its own side. When the source label equals the
target label the two column names are never equal; for differing labels
the two concatenated names can coincide, so the original claim's "never
equal" does not hold in general. -/
theorem c2_endpoint_column_naming (s sp t tp : String) :
    (s = t ∧ sp = tp →
      endpointColNames s sp t tp =
        (s ++ "_" ++ sp ++ "_source", t ++ "_" ++ tp ++ "_target"))
    ∧ (¬(s = t ∧ sp = tp) →
      endpointColNames s sp t tp = (s ++ "_" ++ sp, t ++ "_" ++ tp))
    ∧ (s = t → (endpointColNames s sp t tp).1 ≠ (endpointColNames s sp t tp).2) := by
  refine ⟨?_, ?_, ?_⟩
  · intro h
    obtain ⟨h1, h2⟩ := h
    subst h1; subst h2
    simp [endpointColNames]
  · intro h
    simp [endpointColNames, h]
  · intro hst
    subst hst
    by_cases hp : sp = tp
    · subst hp
      have he : endpointColNames s sp s sp =
          (s ++ "_" ++ sp ++ "_source", s ++ "_" ++ sp ++ "_target") := by
        simp [endpointColNames]
      rw [he]
      intro h
      have h2 := str_append_cancel
        (show (s ++ "_" ++ sp) ++ "_source" = (s ++ "_" ++ sp) ++ "_target" from h)
      exact absurd h2 (by decide)
    · have he : endpointColNames s sp s tp = (s ++ "_" ++ sp, s ++ "_" ++ tp) := by
        simp [endpointColNames, hp]
      rw [he]
      intro h
      exact hp (str_append_cancel (show (s ++ "_") ++ sp = (s ++ "_") ++ tp from h))

/-- C2 counterexample: for the reachable identifier map sending label
`A` to identifier `B_id` and label `A_B` to identifier `id`, the labels
differ, so no suffix is added, and the two endpoint column names of a
pattern from `A` to `A_B` are both `A_B_id` — the claim's "source and
target column names are never equal" fails. -/
theorem c2_equal_columns_counterexample :
    ("A" : String) ≠ "A_B"
    ∧ endpointColNames "A" "B_id" "A_B" "id" = ("A_B_id", "A_B_id")
    ∧ (endpointColNames "A" "B_id" "A_B" "id").1 =
      (endpointColNames "A" "B_id" "A_B" "id").2 := by decide

/-- C3: a node record's row is written to the label's tabular file iff
its identifier value is present and neither the empty string nor the
`NULL` sentinel, and a relationship record's row is written to the
pattern's tabular file iff both the source and the target endpoint
identifier values satisfy that same condition. -/
theorem c3_row_inclusion :
    (∀ (identifier : String) (nodes : List Record) (node : Record),
      node ∈ nodesWithId identifier nodes ↔
        node ∈ nodes ∧
          ∃ v, node.get identifier = some v ∧ v ≠ "" ∧ v ≠ "NULL")
    ∧ ∀ (sourceIdProp targetIdProp : String) (recs : List RelRecord) (rr : RelRecord),
      rr ∈ recs.filter (relKeep sourceIdProp targetIdProp) ↔
        rr ∈ recs ∧
          (∃ v, rr.src.get sourceIdProp = some v ∧ v ≠ "" ∧ v ≠ "NULL") ∧
          ∃ v, rr.tgt.get targetIdProp = some v ∧ v ≠ "" ∧ v ≠ "NULL" := by
  have hval : ∀ o : Option String,
      (!isNullValue o) = true ↔ ∃ v, o = some v ∧ v ≠ "" ∧ v ≠ "NULL" := by
    intro o
    cases o with
    | none => simp [isNullValue]
    | some v => simp [isNullValue, not_or]
  constructor
  · intro identifier nodes node
    rw [nodesWithId, List.mem_filter, hval]
  · intro sourceIdProp targetIdProp recs rr
    rw [List.mem_filter, relKeep, Bool.and_eq_true, hval, hval]

/-- C4: in format 2.4.0 the per-column types of a relationship
pattern's table schema are sampled from `<rel_type>.csv`, a file the
export never writes, not from the pattern's own backing tabular file
`<source>_<type>_<target>.csv`; with the backing file holding an
all-numeric first row, the generated types are all `string` while
sampling the backing file itself, as the claim describes, would give
`integer`. The missing-sample default — type `string` and an empty
sample — does hold, as the node fields over an empty file system show. -/
theorem c4_v2_4_sampling_divergence :
    v2_4RelTableFields c4Fs c4Info ≠ specRelTableFields c4Fs c4Info
    ∧ (v2_4RelTableFields c4Fs c4Info).map (fun f => f.2.2) =
      ["string", "string", "string"]
    ∧ (specRelTableFields c4Fs c4Info).map (fun f => f.2.2) =
      ["integer", "integer", "integer"]
    ∧ c4Fs (c4Info.rel_type ++ ".csv") = none
    ∧ c4Fs (backingRelFile c4Info) ≠ none
    ∧ nodeTableFields (fun _ => none) "Person" ["id", "name"] =
      [("id", "", "string"), ("name", "", "string")] := by decide

/-- C5: for a label with no declared uniqueness constraint, resolution
returns the first property whose name is `id` under case-insensitive
comparison when one exists; otherwise, when the properties whose
lowercase name ends in `id` are not all absent, it returns one of them
of minimal name length (no exact `id` match can remain at this step),
with ties broken by the original property ordering: every earlier
candidate has a strictly longer name. -/
theorem c5_id_name_heuristics (properties : List String) (nodes : List Record) :
    (∀ p, properties.find? (fun q => pyLower q = "id") = some p →
      determine_identifier [] properties nodes = some p)
    ∧ (properties.find? (fun q => pyLower q = "id") = none →
      (properties.filter fun p => pyEndsWith (pyLower p) "id") ≠ [] →
      ∃ x, determine_identifier [] properties nodes = some x ∧
        ∃ i, (properties.filter fun p => pyEndsWith (pyLower p) "id").get? i = some x ∧
          (∀ y ∈ properties.filter fun p => pyEndsWith (pyLower p) "id",
            x.length ≤ y.length) ∧
          ∀ j y, j < i →
            (properties.filter fun p => pyEndsWith (pyLower p) "id").get? j = some y →
            x.length < y.length) := by
  constructor
  · intro p hp
    simp only [determine_identifier, hp]
  · intro hnone hcand
    set cand := properties.filter fun p => pyEndsWith (pyLower p) "id" with hcanddef
    have hnotid : ∀ y ∈ cand, ¬ pyLower y = "id" := by
      intro y hy
      have hy' : y ∈ properties := List.mem_of_mem_filter hy
      have := List.find?_eq_none.mp hnone y hy'
      simpa using this
    cases hfm : firstMinKey cand with
    | none => exact absurd (firstMinKey_eq_none.mp hfm) hcand
    | some m =>
      have hhead : (List.insertionSort idKeyRel cand).head? = some m :=
        (head_insertionSort_eq_firstMinKey cand).trans hfm
      refine ⟨m, ?_, ?_⟩
      · simp only [determine_identifier, hnone, ← hcanddef, hhead]
      · obtain ⟨i, hget, hmin, hfirst⟩ := firstMinKey_spec cand m hfm
        have hm : m ∈ cand := List.get?_mem hget
        have hmkey : (idKey m).1 = true := by
          simp [idKey, hnotid m hm]
        refine ⟨i, hget, ?_, ?_⟩
        · intro y hy
          have hykey : (idKey y).1 = true := by
            simp [idKey, hnotid y hy]
          have := hmin y hy
          simp only [keyLe, hmkey, hykey] at this
          simpa [idKey] using this
        · intro j y hj hget'
          have hy : y ∈ cand := List.get?_mem hget'
          have hykey : (idKey y).1 = true := by
            simp [idKey, hnotid y hy]
          have := hfirst j y hj hget'
          simp only [keyLe, hmkey, hykey] at this
          have hle : ¬ y.length ≤ m.length := by
            simpa [idKey] using this
          omega

/-- C6 counterexample: with properties `a`, `b` (no constraint and no
`id`-named or `id`-suffixed property) and one record carrying only
`b = "1"`, the first property whose sampled-value cardinality equals its
non-null sample count is `a` (zero samples, trivially all unique), yet
the code skips `a` (the sample list must be non-empty) and returns `b`. -/
theorem c6_zero_sample_counterexample :
    claimFirstAllUnique ["a", "b"] [[("b", "1")]] = some "a"
    ∧ determine_identifier [] ["a", "b"] [[("b", "1")]] = some "b"
    ∧ (["a", "b"].find? fun q => pyLower q = "id") = none
    ∧ (["a", "b"].filter fun p => pyEndsWith (pyLower p) "id") = [] := by decide

/-- C6 (amended): for a label with no declared uniqueness constraint and
no property matching the `id` name heuristics, resolution returns the
first property, in the label's property ordering, that has at least one
non-null/non-empty sample value and whose sample values are all
distinct; a property all of whose samples are null or empty is skipped. -/
theorem c6_first_unique_valued_property (properties : List String)
    (nodes : List Record) (p : String)
    (h1 : properties.find? (fun q => pyLower q = "id") = none)
    (h2 : (properties.filter fun q => pyEndsWith (pyLower q) "id") = [])
    (h3 : properties.find? (fun q =>
        let values := sampleValues q nodes
        !values.isEmpty && decide values.Nodup) = some p) :
    determine_identifier [] properties nodes = some p := by
  simp only [determine_identifier, h1, h2, List.insertionSort, h3]
  rfl

/-- C6 witness: with properties `name`, `email` and two records in
which `name` repeats while `email` is distinct, the amended claim
applies and resolution returns `email`. -/
theorem c6_first_unique_valued_property_witness :
    determine_identifier [] ["name", "email"]
      [[("name", "x"), ("email", "a")], [("name", "x"), ("email", "b")]] = some "email" :=
  c6_first_unique_valued_property _ _ _ (by decide) (by decide) (by decide)

/-- C7 (amended): identifier resolution fails iff the label has zero
properties and no declared uniqueness constraint (with a constraint the
constraint property is returned even for a label with no properties);
and the failure is not contained: the uncaught error aborts the node
export, so the labels after the failing one are not exported. -/
theorem c7_resolution_failure :
    (∀ (constraintProps properties : List String) (nodes : List Record),
      determine_identifier constraintProps properties nodes = none ↔
        constraintProps = [] ∧ properties = [])
    ∧ ∀ (ucs : List (String × List String)) (label : String)
        (nodes : List Record) (rest : List (String × List Record)),
        nodes ≠ [] → allProps nodes = [] → (List.lookup label ucs).getD [] = [] →
        export_nodes ucs ((label, nodes) :: rest) = .error label := by
  have hne : ∀ (constraintProps properties : List String) (nodes : List Record),
      constraintProps ≠ [] ∨ properties ≠ [] →
      determine_identifier constraintProps properties nodes ≠ none := by
    intro constraintProps properties nodes h
    cases constraintProps with
    | cons c cs => simp [determine_identifier]
    | nil =>
      have hp : properties ≠ [] := by
        rcases h with h | h
        · exact absurd rfl h
        · exact h
      cases properties with
      | nil => exact absurd rfl hp
      | cons p ps =>
        simp only [determine_identifier]
        split
        · simp
        · split
          · simp
          · split
            · simp
            · simp
  constructor
  · intro constraintProps properties nodes
    constructor
    · intro h
      by_contra hcon
      rcases Decidable.not_and_iff_or_not.mp hcon with hc | hc
      · exact hne _ _ _ (Or.inl hc) h
      · exact hne _ _ _ (Or.inr hc) h
    · rintro ⟨h1, h2⟩
      subst h1; subst h2
      rfl
  · intro ucs label nodes rest h1 h2 h3
    have hempty : nodes.isEmpty = false := by
      cases nodes with
      | nil => exact absurd rfl h1
      | cons n ns => rfl
    simp only [export_nodes, hempty, if_false, h2, h3]
    rfl

/-- C7 counterexample: a declared constraint makes resolution succeed
on a label with zero properties, against the claim's "fails iff zero
properties"; and a failing label aborts the run: with failing label `A`
first, `export_nodes` ends in an error and label `B` is not exported,
against the claim's "other labels still export". -/
theorem c7_counterexample :
    determine_identifier ["x"] [] [] = some "x"
    ∧ export_nodes [] [("A", [[]]), ("B", [[("p", "1")]])] = .error "A" := by
  exact ⟨rfl, rfl⟩

/-- C8: a node tabular file's column list is the resolved identifier
first, followed by a permutation of the remaining observed properties
that is sorted in the lexicographic string order; and every included
row has one cell per column, a property absent from the record rendered
as the `NULL` sentinel, so the row carries the full column set. -/
theorem c8_node_columns_and_null_fill (identifier : String) (nodes : List Record) :
    (sortedProperties identifier nodes).head? = some identifier
    ∧ ((sortedProperties identifier nodes).tail).Perm
      ((allProps nodes).filter fun p => p ≠ identifier)
    ∧ List.Pairwise strle ((sortedProperties identifier nodes).tail)
    ∧ ∀ node ∈ nodesWithId identifier nodes,
        (renderRow (sortedProperties identifier nodes) node).length =
          (sortedProperties identifier nodes).length
        ∧ ∀ pr ∈ (sortedProperties identifier nodes).zip
              (renderRow (sortedProperties identifier nodes) node),
            node.get pr.1 = none → pr.2 = "NULL" := by
  refine ⟨rfl, ?_, ?_, ?_⟩
  · exact List.perm_insertionSort strle _
  · haveI : IsTotal String strle := ⟨strle_total⟩
    haveI : IsTrans String strle := ⟨fun _ _ _ => strle_trans⟩
    exact List.sorted_insertionSort strle _
  · intro node _
    constructor
    · simp [renderRow]
    · intro pr hpr hnone
      have hzip : (sortedProperties identifier nodes).zip
            (renderRow (sortedProperties identifier nodes) node) =
          (sortedProperties identifier nodes).map
            fun c => (c, (node.get c).getD "NULL") := by
        rw [renderRow]
        simpa using List.zip_map' id (fun c => (node.get c).getD "NULL")
          (sortedProperties identifier nodes)
      rw [hzip] at hpr
      obtain ⟨c, _, rfl⟩ := List.mem_map.mp hpr
      simp only at hnone
      simp [hnone]

/-- C9: type inference maps the empty value and the `NULL` sentinel to
`string`; the examples of the claim come out as stated; and — the order
of the parses mattering — a value the integer parse accepts is always
reported as `integer`, never as `float`. -/
theorem c9_infer_type_cascade :
    infer_type "" = "string" ∧ infer_type "NULL" = "string"
    ∧ infer_type "42" = "integer" ∧ infer_type "3.14" = "float"
    ∧ infer_type "true" = "boolean" ∧ infer_type "FALSE" = "boolean"
    ∧ infer_type "abc" = "string"
    ∧ ∀ v, pyIntOk v = true → infer_type v = "integer" := by
  refine ⟨by decide, by decide, by decide, by decide, by decide, by decide, by decide, ?_⟩
  intro v hv
  have h1 : v ≠ "" := by
    intro h
    subst h
    exact absurd hv (by decide)
  have h2 : v ≠ "NULL" := by
    intro h
    subst h
    exact absurd hv (by decide)
  simp [infer_type, h1, h2, hv]

/-- C10: a node label with zero records is skipped before resolution:
it gets no tabular file, no entry in the resolved-identifier map, no
rows and no node-label token in the generated schema document; and any
relationship pattern having it as source or target is skipped by
`export_relationships` (its identifier lookup fails) rather than
flattened. -/
theorem c10_empty_label_skipped (ucs : List (String × List String))
    (labels : List (String × List Record)) (res : NodeExportResult) (emptyLabel : String)
    (hmem : (emptyLabel, ([] : List Record)) ∈ labels)
    (hnd : (labels.map Prod.fst).Nodup)
    (hok : export_nodes ucs labels = .ok res) :
    emptyLabel ∉ res.files.map Prod.fst
    ∧ emptyLabel ∉ res.identifiers.map Prod.fst
    ∧ emptyLabel ∉ res.rows.map Prod.fst
    ∧ emptyLabel ∉ nodeLabelTokens res.files
    ∧ ∀ (fetch : String → String → String → List RelRecord) (s rt t : String),
        s = emptyLabel ∨ t = emptyLabel →
        processPattern res.identifiers fetch (s, rt, t) = none := by
  have hno : ∀ hmem' : emptyLabel ∈ res.files.map Prod.fst ∨
      emptyLabel ∈ res.identifiers.map Prod.fst ∨ emptyLabel ∈ res.rows.map Prod.fst,
      False := by
    intro hmem'
    obtain ⟨recs, hrecs, hne⟩ := export_nodes_ok_mem ucs labels res hok emptyLabel hmem'
    exact hne (nodup_fst_mem_eq hnd hrecs hmem)
  have hid : List.lookup emptyLabel res.identifiers = none :=
    lookup_eq_none_of_not_mem fun h => hno (Or.inr (Or.inl h))
  refine ⟨fun h => hno (Or.inl h), fun h => hno (Or.inr (Or.inl h)),
    fun h => hno (Or.inr (Or.inr h)), fun h => hno (Or.inl h), ?_⟩
  intro fetch s rt t hor
  rcases hor with hs | ht
  · subst hs
    cases h2 : List.lookup t res.identifiers <;>
      simp [processPattern, hid, h2]
  · subst ht
    cases h2 : List.lookup s res.identifiers <;>
      simp [processPattern, hid, h2]

/-- C10 witness: over a metadata list holding the empty label `Empty`
and the one-record label `Person`, the export succeeds, `Empty` appears
in none of the outputs, and a pattern from or to `Empty` is skipped. -/
theorem c10_empty_label_skipped_witness :
    let res : NodeExportResult :=
      ⟨[("Person", ["id"])], [("Person", "id")], [("Person", [["1"]])]⟩
    "Empty" ∉ res.files.map Prod.fst
    ∧ "Empty" ∉ res.identifiers.map Prod.fst
    ∧ "Empty" ∉ res.rows.map Prod.fst
    ∧ "Empty" ∉ nodeLabelTokens res.files
    ∧ ∀ (fetch : String → String → String → List RelRecord) (s rt t : String),
        s = "Empty" ∨ t = "Empty" →
        processPattern res.identifiers fetch (s, rt, t) = none :=
  c10_empty_label_skipped [] [("Empty", []), ("Person", [[("id", "1")]])]
    ⟨[("Person", ["id"])], [("Person", "id")], [("Person", [["1"]])]⟩ "Empty"
    (by decide) (by decide) rfl

end NeoExport
